import Mathlib

/-!
Verification development for the podsmith audio-analysis pipeline.

The repository contains three Python scripts that each implement a variant of
the same pipeline:

* `src/pipeline2.py` — the staged pipeline with JSON checkpoint files
  (`run_full_pipeline`), the duration-summing speaker aligner
  (`map_speakers_to_segments`), and the min-length aggregator.
* `src/pipeline.py` — an earlier variant whose aligner
  (`map_speakers_to_segments`) picks the *most frequent* overlapping speaker
  (turn count, not duration) via `max(set(overlapping), key=overlapping.count)`
  and does not strip segment text.
* `src/python_diarization.py` — a variant whose aligner (`align_segments`)
  picks the single turn with the longest overlap, and whose audio step
  (`trim_to_wav`) converts to mono/16 kHz.

Every definition below is a direct shallow embedding of the corresponding
Python function.  Times are embedded as rationals (`ℚ`); Python floats are
treated as exact arithmetic.  Python's `str.strip()` is embedded as `pystrip`
(drop whitespace characters from both ends).
-/

/-- Python's `str.strip()`: remove leading and trailing whitespace characters.
(Defined on the character list so that it is kernel-executable;
`String.trim` computes the same string but is not reducible by `decide`.) -/
def pystrip (s : String) : String :=
  ⟨((s.data.dropWhile Char.isWhitespace).reverse.dropWhile Char.isWhitespace).reverse⟩

/-- A Whisper transcript segment: `{'start': float, 'end': float, 'text': str}`.
`end` is a Lean keyword, so the field is called `stop`. -/
structure WSeg where
  start : ℚ
  stop : ℚ
  text : String
deriving DecidableEq, Repr

/-- A diarization turn: one speaker label together with its time span.
In `pipeline2.py` these are the triples produced by
`diarization.itertracks(yield_label=True)` and persisted as
`{"speaker": s, "start": t.start, "end": t.end}`; in `python_diarization.py`
they are the `(turn.start, turn.end, speaker)` triples. -/
structure Turn where
  speaker : String
  start : ℚ
  stop : ℚ
deriving DecidableEq, Repr

/-- An aligned segment as built by all three aligners:
`{"start": ..., "end": ..., "text": ..., "speaker": ...}`. -/
structure MappedSeg where
  start : ℚ
  stop : ℚ
  text : String
  speaker : String
deriving DecidableEq, Repr

/-- CPython's `max(iterable, key=f)`: scans left to right and keeps the
current item only when its key is *strictly* greater, so the first item
achieving the maximal key wins.  Returns `none` on an empty list (Python
raises `ValueError` there; every call site below guards non-emptiness). -/
def pymax {α β : Type} [LinearOrder β] (key : α → β) : List α → Option α
  | [] => none
  | x :: xs => some (xs.foldl (fun b y => if key y > key b then y else b) x)

/-- `overlap_duration = max(0, min(end_whisper, turn.end) - max(start_whisper, turn.start))`
(`src/pipeline2.py` lines 247–249). -/
def overlapDuration (s : WSeg) (t : Turn) : ℚ :=
  max 0 (min s.stop t.stop - max s.start t.start)

/-- Total overlap duration of one speaker with one transcript segment, summed
over all of that speaker's turns.  This is the quantity the spec's aligner
contract is stated in ("sum overlap duration per distinct speaker identifier
across all turns attributable to that speaker"). -/
def totalOverlap (s : WSeg) (turns : List Turn) (sp : String) : ℚ :=
  (turns.map fun t => if t.speaker = sp then overlapDuration s t else 0).sum

namespace pipeline2

/-- The `(speaker, overlap_duration)` pairs collected by the loop in
`map_speakers_to_segments` (`src/pipeline2.py` lines 245–252): one entry per
turn whose overlap with the segment is strictly positive, in turn order. -/
def overlapping_speakers (s : WSeg) (turns : List Turn) : List (String × ℚ) :=
  turns.filterMap fun t =>
    if 0 < overlapDuration s t then some (t.speaker, overlapDuration s t) else none

/-- One update of the Python dict accumulation
`speaker_counts[speaker] = speaker_counts.get(speaker, 0) + duration`:
a present key is updated in place (dicts keep insertion order), a new key is
appended at the end. -/
def addCount : List (String × ℚ) → String → ℚ → List (String × ℚ)
  | [], sp, d => [(sp, d)]
  | (s, v) :: rest, sp, d =>
      if s = sp then (s, v + d) :: rest else (s, v) :: addCount rest sp d

/-- The `speaker_counts` dict of `src/pipeline2.py` lines 256–258, as an
insertion-ordered association list. -/
def speaker_counts (ov : List (String × ℚ)) : List (String × ℚ) :=
  ov.foldl (fun acc p => addCount acc p.1 p.2) []

/-- The speaker chosen for one segment (`src/pipeline2.py` lines 254–260):
`"Unknown"` when no turn overlaps, otherwise
`max(speaker_counts, key=speaker_counts.get)`. -/
def chosen_speaker (s : WSeg) (turns : List Turn) : String :=
  match pymax Prod.snd (speaker_counts (overlapping_speakers s turns)) with
  | some p => p.1
  | none => "Unknown"

/-- `map_speakers_to_segments` of `src/pipeline2.py` (lines 228–269): one
output per whisper segment, same order, `start`/`end` copied, text stripped,
speaker chosen by maximal summed overlap. -/
def map_speakers_to_segments (ws : List WSeg) (turns : List Turn) : List MappedSeg :=
  ws.map fun s => ⟨s.start, s.stop, pystrip s.text, chosen_speaker s turns⟩

end pipeline2

namespace pipeline1

/-- `map_speakers_to_segments` of `src/pipeline.py` (lines 38–59),
parametrised by `enum`, the enumeration order of the Python expression
`set(overlapping)`.  CPython does not specify a set's iteration order for
strings (it depends on the per-process hash seed), so the enumeration is an
explicit parameter here; any function producing the set's elements in some
order is a legitimate instance.  The chosen speaker is
`max(set(overlapping), key=overlapping.count)` — most frequent overlapping
*turn count*, not summed duration — and the text is *not* stripped. -/
def map_speakers_to_segments_enum (enum : List String → List String)
    (ws : List WSeg) (turns : List Turn) : List MappedSeg :=
  ws.map fun s =>
    let overlapping := turns.filterMap fun t =>
      if s.start < t.stop ∧ s.stop > t.start then some t.speaker else none
    let speaker :=
      match pymax (fun sp => overlapping.count sp) (enum overlapping) with
      | some sp => sp
      | none => "Unknown"
    ⟨s.start, s.stop, s.text, speaker⟩

/-- `map_speakers_to_segments` of `src/pipeline.py` with one fixed
representative set-enumeration order (`List.dedup`).  Statements proved below
about this instance are only used at inputs where the speaker counts have a
strict maximum, so they hold for every enumeration order. -/
def map_speakers_to_segments (ws : List WSeg) (turns : List Turn) : List MappedSeg :=
  map_speakers_to_segments_enum List.dedup ws turns

end pipeline1

namespace python_diarization

/-- `align_segments` of `src/python_diarization.py` (lines 45–66): keeps the
turns passing the boundary test `not (s["end"] <= seg[0] or s["start"] >= seg[1])`,
then takes the single turn with the longest overlap
(`max(overlapping, key=lambda seg: min(s["end"], seg[1]) - max(s["start"], seg[0]))`),
prefixing the speaker with `"Speaker_"`; otherwise `"Speaker_unknown"`. -/
def align_segments (ts : List WSeg) (diarization : List Turn) : List MappedSeg :=
  ts.map fun s =>
    let overlapping := diarization.filter fun t => ¬ (s.stop ≤ t.start ∨ s.start ≥ t.stop)
    let speaker :=
      match pymax (fun t => min s.stop t.stop - max s.start t.start) overlapping with
      | some t => "Speaker_" ++ t.speaker
      | none => "Speaker_unknown"
    ⟨s.start, s.stop, pystrip s.text, speaker⟩

end python_diarization

/-- A pydub `AudioSegment` reduced to the attributes the audio steps read or
write: channel count, frame rate, and length in milliseconds
(`audio[:n]` slices by milliseconds). -/
structure Audio where
  channels : ℕ
  frame_rate : ℕ
  length_ms : ℕ
deriving DecidableEq, Repr

namespace pydub

/-- `audio[:ms]`: keep at most the first `ms` milliseconds. -/
def slice_ms (a : Audio) (ms : ℕ) : Audio :=
  { a with length_ms := min a.length_ms ms }

/-- `audio.set_channels(c)`. -/
def set_channels (a : Audio) (c : ℕ) : Audio :=
  { a with channels := c }

/-- `audio.set_frame_rate(r)`. -/
def set_frame_rate (a : Audio) (r : ℕ) : Audio :=
  { a with frame_rate := r }

end pydub

namespace pipeline2

/-- The audio transformation of `preprocess_audio` (`src/pipeline2.py`
lines 173–177): `audio[: max_duration_sec * 1000]` exported as WAV.  The
surrounding function also skips the work when the output file already exists
and returns `None` on a decoding error; those control paths are modelled in
`run_full_pipeline` below.  Note that no `set_channels`/`set_frame_rate` call
occurs: channel count and frame rate pass through unchanged. -/
def preprocess_audio (a : Audio) (max_duration_sec : ℕ) : Audio :=
  pydub.slice_ms a (max_duration_sec * 1000)

end pipeline2

namespace pipeline1

/-- The audio transformation of `convert_and_trim` (`src/pipeline.py`
lines 17–20): `audio[: max_duration_sec * 1000]` exported as WAV; channel
count and frame rate pass through unchanged. -/
def convert_and_trim (a : Audio) (max_duration_sec : ℕ) : Audio :=
  pydub.slice_ms a (max_duration_sec * 1000)

end pipeline1

namespace python_diarization

/-- The audio transformation of `trim_to_wav` (`src/python_diarization.py`
lines 12–15): `audio.set_channels(1).set_frame_rate(16000)` then
`audio[:max_sec * 1000]` exported as WAV. -/
def trim_to_wav (a : Audio) (max_sec : ℕ) : Audio :=
  pydub.slice_ms (pydub.set_frame_rate (pydub.set_channels a 1) 16000) (max_sec * 1000)

end python_diarization

/-! ## The `run_full_pipeline` orchestrator of `src/pipeline2.py`

Each checkpointed stage follows the same pattern (lines 571–687):

    try:
        loaded = load_intermediate_json(...)
        if loaded is None:
            value = <collaborator call>(...)
            save_intermediate_json(value, ...)
        else:
            value = loaded
    except Exception:
        return {}

`load_intermediate_json` itself never raises: a missing file, a
`json.JSONDecodeError` or any other read error all return `None`
(lines 135–150).  `save_intermediate_json` swallows its own errors.  So a
stage aborts the run exactly when its collaborator call raises.  Each
collaborator is modelled as an oracle value: `some payload` is the value the
call would return on this run, `none` means it raises.  The aligner stage's
`compute` is `map_speakers_to_segments` itself, which is total. -/

/-- A Whisper result dict: `{"text": ..., "segments": [...]}`. -/
structure WhisperResult where
  text : String
  segments : List WSeg
deriving DecidableEq, Repr

/-- Per-segment audio features as produced by `extract_audio_features`. -/
structure AFeat where
  mfccs : List ℚ
  chroma : List ℚ
  rms_energy : ℚ
deriving DecidableEq, Repr

/-- The state of one stage's persisted JSON record: missing, present but
unparseable (`json.JSONDecodeError` / read error), or parseable with a
payload. -/
inductive CEntry (α : Type) where
  | absent
  | corrupt
  | ok (a : α)
deriving DecidableEq, Repr

/-- The shape of a cache record with the payload forgotten. -/
inductive EKind where
  | absent
  | corrupt
  | ok
deriving DecidableEq, Repr

/-- Forget a record's payload. -/
def CEntry.kind {α : Type} : CEntry α → EKind
  | .absent => EKind.absent
  | .corrupt => EKind.corrupt
  | .ok _ => EKind.ok

/-- `load_intermediate_json` (`src/pipeline2.py` lines 135–150): a missing
file and an unparseable file both yield `None`; only a parseable record
yields its payload.  It never raises. -/
def load_intermediate_json {α : Type} : CEntry α → Option α
  | .absent => none
  | .corrupt => none
  | .ok a => some a

/-- The eight JSON checkpoint records of `run_full_pipeline`, one field per
`step_name` string used in the source. -/
structure Cache where
  whisper_raw : CEntry WhisperResult
  diarization_raw : CEntry (List Turn)
  mapped_segments : CEntry (List MappedSeg)
  audio_features : CEntry (List AFeat)
  text_embeddings : CEntry (List (List ℚ))
  text_emotions : CEntry (List String)
  speech_emotions : CEntry (List String)
  keywords : CEntry (List (List String))
deriving DecidableEq, Repr

/-- The cache with no records (a fresh run). -/
def Cache.empty : Cache :=
  ⟨.absent, .absent, .absent, .absent, .absent, .absent, .absent, .absent⟩

/-- The pipeline's stages in declaration order.  `preprocess` is Step 1,
whose "record" is the `*_trimmed.wav` file on disk rather than a JSON
checkpoint; the other eight are the JSON-checkpointed steps 2–8. -/
inductive StageId where
  | preprocess
  | whisper_raw
  | diarization_raw
  | mapped_segments
  | audio_features
  | text_embeddings
  | text_emotions
  | speech_emotions
  | keywords
deriving DecidableEq, Repr, Fintype

/-- Position of a stage in execution order (1-based, as in the spec's
"stages 1..k"). -/
def stageIndex : StageId → ℕ
  | .preprocess => 1
  | .whisper_raw => 2
  | .diarization_raw => 3
  | .mapped_segments => 4
  | .audio_features => 5
  | .text_embeddings => 6
  | .text_emotions => 7
  | .speech_emotions => 8
  | .keywords => 9

/-- The collaborator calls of one run, as oracles: `some v` is the value the
call returns on this run, `none` means the call raises.  (Each collaborator
is called at most once per run, on arguments the run itself determines:
`transcribe_audio(wav)`, `perform_speaker_diarization(wav)`,
`extract_audio_features(wav, diarized_segments)`,
`get_text_embeddings(texts)`, `run_text_emotion_analysis(texts)`,
`run_speech_emotion_recognition(wav, diarized_segments)`,
`extract_keywords(texts)` — so its response is modelled as one value.) -/
structure Collab where
  transcribe_audio : Option WhisperResult
  perform_speaker_diarization : Option (List Turn)
  extract_audio_features : Option (List AFeat)
  get_text_embeddings : Option (List (List ℚ))
  run_text_emotion_analysis : Option (List String)
  run_speech_emotion_recognition : Option (List String)
  extract_keywords : Option (List (List String))
deriving DecidableEq, Repr

/-- The inputs of one `run_full_pipeline` call: the basename recorded in the
output document, the filename base used for output files, whether the
`*_trimmed.wav` file already exists (Step 1's skip test,
`os.path.exists(output_wav_path)`), whether decoding the input audio
succeeds (`AudioSegment.from_file` raising is modelled as `false`), the
cache on disk, and the collaborator oracles. -/
structure RunInput where
  audio_file : String
  filename_base : String
  wav_exists : Bool
  audio_load_ok : Bool
  cache : Cache
  collab : Collab
deriving DecidableEq, Repr

/-- One fully enriched segment record (`seg_data` built at
`src/pipeline2.py` lines 698–705). -/
structure FinalSeg where
  start : ℚ
  stop : ℚ
  text : String
  speaker : String
  audio_features : AFeat
  text_embedding : List ℚ
  text_emotion : String
  speech_emotion : String
  keywords : List String
deriving DecidableEq, Repr

/-- A simplified segment: `audio_features` and `text_embedding` popped
(`src/pipeline2.py` lines 715–719). -/
structure SimpleSeg where
  start : ℚ
  stop : ℚ
  text : String
  speaker : String
  text_emotion : String
  speech_emotion : String
  keywords : List String
deriving DecidableEq, Repr

/-- The full output document (`full_output_data`, lines 708–712). -/
structure FullDoc where
  audio_file : String
  full_transcript : String
  segments : List FinalSeg
deriving DecidableEq, Repr

/-- The simplified output document (`simplified_output_data`, lines 721–725). -/
structure SimpleDoc where
  audio_file : String
  full_transcript : String
  segments : List SimpleSeg
deriving DecidableEq, Repr

/-- Drop `audio_features` and `text_embedding` from one segment
(the two `pop` calls at lines 717–718). -/
def simplifySeg (s : FinalSeg) : SimpleSeg :=
  ⟨s.start, s.stop, s.text, s.speaker, s.text_emotion, s.speech_emotion, s.keywords⟩

/-- The simplified variant of the full document (lines 714–725). -/
def simplifyDoc (d : FullDoc) : SimpleDoc :=
  ⟨d.audio_file, d.full_transcript, d.segments.map simplifySeg⟩

/-- A `save_final_results` invocation: which variant of the final document
was persisted, under which filename base. -/
inductive SavedDoc where
  | simple (filename_base : String) (doc : SimpleDoc)
  | full (filename_base : String) (doc : FullDoc)
deriving DecidableEq, Repr

/-- Everything observable about one `run_full_pipeline` call: which stage
computes were invoked (in order), the cache records on disk afterwards, the
final documents persisted by `save_final_results`, and the returned value
(`none` is Python's `return {}`). -/
structure RunTrace where
  invoked : List StageId
  cacheAfter : Cache
  savedFinal : List SavedDoc
  result : Option FullDoc
deriving DecidableEq, Repr

/-- One checkpointed stage (the load / compute / save pattern quoted above):
returns the stage's value (`none` = its collaborator raised, aborting the
run), the invoked-compute delta, and the stage's cache record afterwards. -/
def stageStep {α : Type} (sid : StageId) (entry : CEntry α) (compute : Option α) :
    Option α × List StageId × CEntry α :=
  match load_intermediate_json entry with
  | some v => (some v, [], entry)
  | none =>
    match compute with
    | some v => (some v, [sid], CEntry.ok v)
    | none => (none, [sid], entry)

/-- The per-index merge loop of `run_full_pipeline` (lines 690–705):
`min_len = min(...)` over the six lists, then one merged record per index
below `min_len`, each field read from its own list at that index.  (A 6-way
zip is the same loop: it stops at the shortest list and reads index `i` of
each list at step `i`.) -/
def aggregateSegments :
    List MappedSeg → List AFeat → List (List ℚ) → List String → List String →
      List (List String) → List FinalSeg
  | d :: ds, a :: afs, e :: tes, m :: tms, s :: sems, k :: kws =>
      ⟨d.start, d.stop, d.text, d.speaker, a, e, m, s, k⟩ ::
        aggregateSegments ds afs tes tms sems kws
  | _, _, _, _, _, _ => []

/-- `run_full_pipeline` of `src/pipeline2.py` (lines 533–738), with the dead
statements after the `return full_output_data` at line 731 (a second
`save_final_results` call on the full document, lines 733–738) unreachable
exactly as in the source.  Stage order, abort points (`return {}`), the
empty-segments check after Step 4, the single `save_final_results` call on
the simplified document, and the returned full document follow the source
line by line. -/
def run_full_pipeline (inp : RunInput) : RunTrace :=
  -- Step 1: preprocess_audio — skipped when the trimmed wav already exists;
  -- a decoding failure returns None and stops the pipeline.
  let inv1 : List StageId := if inp.wav_exists then [] else [StageId.preprocess]
  if inp.wav_exists = false ∧ inp.audio_load_ok = false then
    ⟨inv1, inp.cache, [], none⟩
  else
    -- Step 2: whisper_raw
    match stageStep StageId.whisper_raw inp.cache.whisper_raw inp.collab.transcribe_audio with
    | (none, d2, e2) => ⟨inv1 ++ d2, { inp.cache with whisper_raw := e2 }, [], none⟩
    | (some wr, d2, e2) =>
      let c2 : Cache := { inp.cache with whisper_raw := e2 }
      -- Step 3: diarization_raw (the reconstructed annotation carries the
      -- same turns as the persisted list)
      match stageStep StageId.diarization_raw c2.diarization_raw
          inp.collab.perform_speaker_diarization with
      | (none, d3, e3) => ⟨inv1 ++ d2 ++ d3, { c2 with diarization_raw := e3 }, [], none⟩
      | (some dl, d3, e3) =>
        let c3 : Cache := { c2 with diarization_raw := e3 }
        -- Step 4: mapped_segments; compute is the aligner itself
        match stageStep StageId.mapped_segments c3.mapped_segments
            (some (pipeline2.map_speakers_to_segments wr.segments dl)) with
        | (none, d4, e4) => ⟨inv1 ++ d2 ++ d3 ++ d4, { c3 with mapped_segments := e4 }, [], none⟩
        | (some ds, d4, e4) =>
          let c4 : Cache := { c3 with mapped_segments := e4 }
          -- `if not diarized_segments: return {}` (line 620)
          if ds = [] then ⟨inv1 ++ d2 ++ d3 ++ d4, c4, [], none⟩
          else
            -- Step 5: audio_features
            match stageStep StageId.audio_features c4.audio_features
                inp.collab.extract_audio_features with
            | (none, d5, e5) =>
              ⟨inv1 ++ d2 ++ d3 ++ d4 ++ d5, { c4 with audio_features := e5 }, [], none⟩
            | (some afs, d5, e5) =>
              let c5 : Cache := { c4 with audio_features := e5 }
              -- Step 6: text_embeddings
              match stageStep StageId.text_embeddings c5.text_embeddings
                  inp.collab.get_text_embeddings with
              | (none, d6, e6) =>
                ⟨inv1 ++ d2 ++ d3 ++ d4 ++ d5 ++ d6, { c5 with text_embeddings := e6 }, [], none⟩
              | (some tes, d6, e6) =>
                let c6 : Cache := { c5 with text_embeddings := e6 }
                -- Step 7a: text_emotions
                match stageStep StageId.text_emotions c6.text_emotions
                    inp.collab.run_text_emotion_analysis with
                | (none, d7, e7) =>
                  ⟨inv1 ++ d2 ++ d3 ++ d4 ++ d5 ++ d6 ++ d7,
                    { c6 with text_emotions := e7 }, [], none⟩
                | (some tms, d7, e7) =>
                  let c7 : Cache := { c6 with text_emotions := e7 }
                  -- Step 7b: speech_emotions
                  match stageStep StageId.speech_emotions c7.speech_emotions
                      inp.collab.run_speech_emotion_recognition with
                  | (none, d8, e8) =>
                    ⟨inv1 ++ d2 ++ d3 ++ d4 ++ d5 ++ d6 ++ d7 ++ d8,
                      { c7 with speech_emotions := e8 }, [], none⟩
                  | (some sems, d8, e8) =>
                    let c8 : Cache := { c7 with speech_emotions := e8 }
                    -- Step 8: keywords
                    match stageStep StageId.keywords c8.keywords
                        inp.collab.extract_keywords with
                    | (none, d9, e9) =>
                      ⟨inv1 ++ d2 ++ d3 ++ d4 ++ d5 ++ d6 ++ d7 ++ d8 ++ d9,
                        { c8 with keywords := e9 }, [], none⟩
                    | (some kws, d9, e9) =>
                      let c9 : Cache := { c8 with keywords := e9 }
                      -- lines 690–712: merge, build both documents
                      let final_segments := aggregateSegments ds afs tes tms sems kws
                      let full_output_data : FullDoc :=
                        ⟨inp.audio_file, pystrip wr.text, final_segments⟩
                      -- line 728: save only the simplified variant, then
                      -- line 731: return the full document (lines 733–738
                      -- are dead code)
                      ⟨inv1 ++ d2 ++ d3 ++ d4 ++ d5 ++ d6 ++ d7 ++ d8 ++ d9, c9,
                        [SavedDoc.simple (inp.filename_base ++ "_no_embeddings")
                          (simplifyDoc full_output_data)],
                        some full_output_data⟩

/-- The shape of the JSON record a cache holds for stage `s`.  (`preprocess`
has no JSON record — its checkpoint is the `*_trimmed.wav` file — so it reads
as `absent` here; statements about JSON records exclude it by hypothesis.) -/
def Cache.kindAt (c : Cache) : StageId → EKind
  | .preprocess => EKind.absent
  | .whisper_raw => c.whisper_raw.kind
  | .diarization_raw => c.diarization_raw.kind
  | .mapped_segments => c.mapped_segments.kind
  | .audio_features => c.audio_features.kind
  | .text_embeddings => c.text_embeddings.kind
  | .text_emotions => c.text_emotions.kind
  | .speech_emotions => c.speech_emotions.kind
  | .keywords => c.keywords.kind

/-- The shape of the record backing stage `s` in the inputs `inp`: for
`preprocess` the presence of the `*_trimmed.wav` file, for the other stages
the JSON record's shape. -/
def cacheKind (inp : RunInput) : StageId → EKind
  | .preprocess => if inp.wav_exists then EKind.ok else EKind.absent
  | s => inp.cache.kindAt s

/-- Replace stage `s`'s JSON record by a corrupted one (`preprocess` has no
JSON record and is left unchanged; the theorems about this function exclude
it by hypothesis). -/
def setCorrupt (c : Cache) : StageId → Cache
  | .preprocess => c
  | .whisper_raw => { c with whisper_raw := CEntry.corrupt }
  | .diarization_raw => { c with diarization_raw := CEntry.corrupt }
  | .mapped_segments => { c with mapped_segments := CEntry.corrupt }
  | .audio_features => { c with audio_features := CEntry.corrupt }
  | .text_embeddings => { c with text_embeddings := CEntry.corrupt }
  | .text_emotions => { c with text_emotions := CEntry.corrupt }
  | .speech_emotions => { c with speech_emotions := CEntry.corrupt }
  | .keywords => { c with keywords := CEntry.corrupt }

/-- One legitimate enumeration order of a CPython set's elements (first
occurrences kept, here realised as `List.dedup`). -/
def setEnumA : List String → List String := List.dedup

/-- Another legitimate enumeration order of the same set (the reverse of
`setEnumA`): CPython specifies neither, and the actual order varies with the
per-process string hash seed. -/
def setEnumB (l : List String) : List String := l.dedup.reverse

/-- `dict.get(key, 0)` on an insertion-ordered association list. -/
def lookupQ : List (String × ℚ) → String → ℚ
  | [], _ => 0
  | (a, v) :: r, x => if a = x then v else lookupQ r x

/-- The sum of the values attached to one key in a `(speaker, duration)`
list. -/
def partialTotal (ov : List (String × ℚ)) (x : String) : ℚ :=
  (ov.map fun p => if p.1 = x then p.2 else 0).sum

/-- Collaborator oracles for a small successful demonstration run: one
transcript segment, one diarization turn, every stage succeeding. -/
def demoCollab : Collab :=
  { transcribe_audio := some ⟨" hello there ", [⟨0, 2, " hello "⟩]⟩
    perform_speaker_diarization := some [⟨"A", 0, 2⟩]
    extract_audio_features := some [⟨[1], [2], 3⟩]
    get_text_embeddings := some [[1, 2]]
    run_text_emotion_analysis := some ["joy"]
    run_speech_emotion_recognition := some ["neu"]
    extract_keywords := some [["hi"]] }

/-- A fresh run (empty cache, audio decodes) with `demoCollab`'s oracles. -/
def demoInput : RunInput :=
  ⟨"t.mp3", "t", false, true, Cache.empty, demoCollab⟩

/-- The full document `demoInput`'s run returns. -/
def demoFull : FullDoc :=
  ⟨"t.mp3", "hello there", [⟨0, 2, "hello", "A", ⟨[1], [2], 3⟩, [1, 2], "joy", "neu", ["hi"]⟩]⟩

/-- `demoInput` but with the trimmed wav already on disk (Step 1 skipped). -/
def demoInputW : RunInput :=
  ⟨"t.mp3", "t", true, true, Cache.empty, demoCollab⟩

/-- `demoCollab` with a Speech Emotion Classifier that raises. -/
def serFailCollab : Collab :=
  { demoCollab with run_speech_emotion_recognition := none }

/-- A fresh run in which only the speech-emotion stage fails. -/
def serFailInput : RunInput :=
  ⟨"t.mp3", "t", true, true, Cache.empty, serFailCollab⟩

/-- A re-run whose cache already holds valid records for stages 1–4
(the trimmed wav exists; whisper_raw, diarization_raw and mapped_segments
records parse), with every collaborator available. -/
def resumeInput : RunInput :=
  ⟨"t.mp3", "t", true, true,
    ⟨CEntry.ok ⟨" hello there ", [⟨0, 2, " hello "⟩]⟩, CEntry.ok [⟨"A", 0, 2⟩],
      CEntry.ok [⟨0, 2, "hello", "A"⟩], CEntry.absent, CEntry.absent, CEntry.absent,
      CEntry.absent, CEntry.absent⟩,
    demoCollab⟩

/-! ## Lemmas about pipeline2's duration-summing aligner -/

theorem lookupQ_addCount (acc : List (String × ℚ)) (sp : String) (d : ℚ) (x : String) :
    lookupQ (pipeline2.addCount acc sp d) x = lookupQ acc x + (if sp = x then d else 0) := by
  induction acc with
  | nil => by_cases h : sp = x <;> simp [pipeline2.addCount, lookupQ, h]
  | cons p rest ih =>
    obtain ⟨a, v⟩ := p
    by_cases ha : a = sp
    · subst ha
      by_cases hx : a = x <;> simp [pipeline2.addCount, lookupQ, hx]
    · by_cases hx : a = x
      · subst hx
        have hsx : ¬ sp = a := fun he => ha he.symm
        simp [pipeline2.addCount, lookupQ, ha, hsx]
      · simp [pipeline2.addCount, lookupQ, ha, hx, ih]

theorem lookupQ_foldl_addCount (ov : List (String × ℚ)) (acc : List (String × ℚ)) (x : String) :
    lookupQ (ov.foldl (fun a p => pipeline2.addCount a p.1 p.2) acc) x
      = lookupQ acc x + partialTotal ov x := by
  induction ov generalizing acc with
  | nil => simp [partialTotal]
  | cons p ovt ih =>
    simp only [List.foldl_cons, ih, lookupQ_addCount, partialTotal, List.map_cons,
      List.sum_cons]
    ring

theorem lookupQ_speaker_counts (ov : List (String × ℚ)) (x : String) :
    lookupQ (pipeline2.speaker_counts ov) x = partialTotal ov x := by
  simpa [pipeline2.speaker_counts, lookupQ] using lookupQ_foldl_addCount ov [] x

theorem keys_addCount (acc : List (String × ℚ)) (sp : String) (d : ℚ) :
    (pipeline2.addCount acc sp d).map Prod.fst =
      if sp ∈ acc.map Prod.fst then acc.map Prod.fst else acc.map Prod.fst ++ [sp] := by
  induction acc with
  | nil => simp [pipeline2.addCount]
  | cons p rest ih =>
    obtain ⟨a, v⟩ := p
    by_cases ha : a = sp
    · simp [pipeline2.addCount, ha]
    · have hsa : ¬ sp = a := fun he => ha he.symm
      by_cases hmem : sp ∈ rest.map Prod.fst <;>
        simp [pipeline2.addCount, ha, ih, hsa, hmem]

theorem nodup_keys_addCount {acc : List (String × ℚ)} (h : (acc.map Prod.fst).Nodup)
    (sp : String) (d : ℚ) : ((pipeline2.addCount acc sp d).map Prod.fst).Nodup := by
  rw [keys_addCount]
  split_ifs with hmem
  · exact h
  · simp [List.nodup_append, h, hmem]

theorem nodup_keys_speaker_counts (ov : List (String × ℚ)) :
    ((pipeline2.speaker_counts ov).map Prod.fst).Nodup := by
  have main : ∀ acc : List (String × ℚ), (acc.map Prod.fst).Nodup →
      ((ov.foldl (fun a p => pipeline2.addCount a p.1 p.2) acc).map Prod.fst).Nodup := by
    induction ov with
    | nil => intro acc h; simpa using h
    | cons p ovt ih =>
      intro acc h
      simpa using ih _ (nodup_keys_addCount h p.1 p.2)
  simpa [pipeline2.speaker_counts] using main [] (by simp)

theorem lookupQ_eq_of_mem {l : List (String × ℚ)} (h : (l.map Prod.fst).Nodup)
    {x : String} {v : ℚ} (hm : (x, v) ∈ l) : lookupQ l x = v := by
  induction l with
  | nil => cases hm
  | cons p rest ih =>
    obtain ⟨a, w⟩ := p
    rw [List.map_cons, List.nodup_cons] at h
    rcases List.mem_cons.mp hm with hh | ht
    · injection hh with h1 h2
      subst h1
      subst h2
      simp [lookupQ]
    · have hax : ¬ a = x := by
        intro he
        refine h.1 ?_
        rw [he]
        simpa using List.mem_map_of_mem Prod.fst ht
      simp [lookupQ, hax, ih h.2 ht]

theorem lookupQ_zero_or_mem (l : List (String × ℚ)) (x : String) :
    lookupQ l x = 0 ∨ (x, lookupQ l x) ∈ l := by
  induction l with
  | nil => left; rfl
  | cons p rest ih =>
    obtain ⟨a, v⟩ := p
    by_cases ha : a = x
    · subst ha
      right
      simp [lookupQ]
    · rcases ih with h | h
      · left
        simpa [lookupQ, ha] using h
      · right
        simp only [lookupQ, ha, if_false]
        exact List.mem_cons_of_mem _ h

theorem pymax_foldl_mem {α β : Type} [LinearOrder β] (key : α → β) :
    ∀ (xs : List α) (b : α),
      xs.foldl (fun c y => if key y > key c then y else c) b ∈ b :: xs := by
  intro xs
  induction xs with
  | nil => intro b; simp
  | cons y ys ih =>
    intro b
    simp only [List.foldl_cons]
    rcases List.mem_cons.mp (ih (if key y > key b then y else b)) with h | h
    · rw [h]
      split_ifs
      · exact List.mem_cons_of_mem _ (List.mem_cons_self _ _)
      · exact List.mem_cons_self _ _
    · exact List.mem_cons_of_mem _ (List.mem_cons_of_mem _ h)

theorem pymax_foldl_ge {α β : Type} [LinearOrder β] (key : α → β) :
    ∀ (xs : List α) (b : α),
      key b ≤ key (xs.foldl (fun c y => if key y > key c then y else c) b) ∧
        ∀ q ∈ xs, key q ≤ key (xs.foldl (fun c y => if key y > key c then y else c) b) := by
  intro xs
  induction xs with
  | nil => intro b; simp
  | cons y ys ih =>
    intro b
    simp only [List.foldl_cons]
    obtain ⟨h1, h2⟩ := ih (if key y > key b then y else b)
    refine ⟨le_trans ?_ h1, ?_⟩
    · split_ifs with hi
      · exact le_of_lt hi
      · exact le_refl _
    · intro q hq
      rcases List.mem_cons.mp hq with rfl | hq
      · refine le_trans ?_ h1
        split_ifs with hi
        · exact le_refl _
        · exact le_of_not_lt hi
      · exact h2 q hq

theorem pymax_mem {α β : Type} [LinearOrder β] {key : α → β} {l : List α} {p : α}
    (h : pymax key l = some p) : p ∈ l := by
  cases l with
  | nil => cases h
  | cons x xs =>
    have hp : xs.foldl (fun c y => if key y > key c then y else c) x = p := by
      simpa [pymax] using h
    rw [← hp]
    exact pymax_foldl_mem key xs x

theorem pymax_ge {α β : Type} [LinearOrder β] {key : α → β} {l : List α} {p : α}
    (h : pymax key l = some p) : ∀ q ∈ l, key q ≤ key p := by
  cases l with
  | nil => cases h
  | cons x xs =>
    have hp : xs.foldl (fun c y => if key y > key c then y else c) x = p := by
      simpa [pymax] using h
    intro q hq
    rcases List.mem_cons.mp hq with rfl | hq
    · rw [← hp]
      exact (pymax_foldl_ge key xs q).1
    · rw [← hp]
      exact (pymax_foldl_ge key xs x).2 q hq

theorem pymax_isSome {α β : Type} [LinearOrder β] (key : α → β) {l : List α}
    (h : l ≠ []) : ∃ p, pymax key l = some p := by
  cases l with
  | nil => exact absurd rfl h
  | cons x xs => exact ⟨_, rfl⟩

theorem overlapDuration_nonneg (s : WSeg) (t : Turn) : 0 ≤ overlapDuration s t :=
  le_max_left _ _

theorem partialTotal_overlapping (s : WSeg) (turns : List Turn) (x : String) :
    partialTotal (pipeline2.overlapping_speakers s turns) x = totalOverlap s turns x := by
  induction turns with
  | nil => simp [partialTotal, pipeline2.overlapping_speakers, totalOverlap]
  | cons t ts ih =>
    have htot : totalOverlap s (t :: ts) x
        = (if t.speaker = x then overlapDuration s t else 0) + totalOverlap s ts x := by
      simp [totalOverlap]
    by_cases hd : 0 < overlapDuration s t
    · have hcons : pipeline2.overlapping_speakers s (t :: ts)
          = (t.speaker, overlapDuration s t) :: pipeline2.overlapping_speakers s ts := by
        simp [pipeline2.overlapping_speakers, List.filterMap_cons, hd]
      rw [hcons, htot]
      simp only [partialTotal, List.map_cons, List.sum_cons]
      rw [← ih]
      rfl
    · have hz : overlapDuration s t = 0 :=
        le_antisymm (not_lt.mp hd) (overlapDuration_nonneg s t)
      have hcons : pipeline2.overlapping_speakers s (t :: ts)
          = pipeline2.overlapping_speakers s ts := by
        simp [pipeline2.overlapping_speakers, List.filterMap_cons, hd]
      rw [hcons, htot, hz, ih]
      simp

theorem totalOverlap_nonneg (s : WSeg) (turns : List Turn) (x : String) :
    0 ≤ totalOverlap s turns x := by
  refine List.sum_nonneg ?_
  intro q hq
  obtain ⟨t, _, rfl⟩ := List.mem_map.mp hq
  split_ifs
  · exact overlapDuration_nonneg s t
  · exact le_refl 0

theorem totalOverlap_pos {s : WSeg} {turns : List Turn} {t : Turn}
    (ht : t ∈ turns) (hd : 0 < overlapDuration s t) :
    0 < totalOverlap s turns t.speaker := by
  refine lt_of_lt_of_le hd ?_
  have hmem : (if t.speaker = t.speaker then overlapDuration s t else 0)
      ∈ turns.map fun u => if u.speaker = t.speaker then overlapDuration s u else 0 :=
    List.mem_map_of_mem _ ht
  have hnn : ∀ q ∈ turns.map fun u =>
      if u.speaker = t.speaker then overlapDuration s u else 0, 0 ≤ q := by
    intro q hq
    obtain ⟨u, _, rfl⟩ := List.mem_map.mp hq
    split_ifs
    · exact overlapDuration_nonneg s u
    · exact le_refl 0
  have := List.single_le_sum hnn _ hmem
  simpa [totalOverlap] using this

theorem chosen_speaker_max (s : WSeg) (turns : List Turn)
    (hov : ∃ t ∈ turns, 0 < overlapDuration s t) :
    0 < totalOverlap s turns (pipeline2.chosen_speaker s turns) ∧
      ∀ sp, totalOverlap s turns sp ≤ totalOverlap s turns (pipeline2.chosen_speaker s turns) := by
  obtain ⟨t0, ht0, hd0⟩ := hov
  have hlook : ∀ x, lookupQ (pipeline2.speaker_counts (pipeline2.overlapping_speakers s turns)) x
      = totalOverlap s turns x := by
    intro x
    rw [lookupQ_speaker_counts, partialTotal_overlapping]
  have ht0pos : 0 < totalOverlap s turns t0.speaker := totalOverlap_pos ht0 hd0
  have hne : pipeline2.speaker_counts (pipeline2.overlapping_speakers s turns) ≠ [] := by
    intro h
    have h0 := hlook t0.speaker
    rw [h] at h0
    simp only [lookupQ] at h0
    exact absurd h0.symm (ne_of_gt ht0pos)
  obtain ⟨p, hp⟩ := pymax_isSome Prod.snd hne
  have hchosen : pipeline2.chosen_speaker s turns = p.1 := by
    rw [pipeline2.chosen_speaker, hp]
  have hmem : p ∈ pipeline2.speaker_counts (pipeline2.overlapping_speakers s turns) :=
    pymax_mem hp
  have hpv : lookupQ (pipeline2.speaker_counts (pipeline2.overlapping_speakers s turns)) p.1
      = p.2 :=
    lookupQ_eq_of_mem
      (nodup_keys_speaker_counts (pipeline2.overlapping_speakers s turns)) (by simpa using hmem)
  have hge : ∀ q ∈ pipeline2.speaker_counts (pipeline2.overlapping_speakers s turns),
      q.2 ≤ p.2 := pymax_ge hp
  have hchosen_total : totalOverlap s turns p.1 = p.2 := by
    rw [← hlook p.1, hpv]
  have hp2pos : 0 < p.2 := by
    rcases lookupQ_zero_or_mem
        (pipeline2.speaker_counts (pipeline2.overlapping_speakers s turns))
        t0.speaker with h0' | hm'
    · rw [hlook t0.speaker] at h0'
      exact absurd h0' (ne_of_gt ht0pos)
    · have h1 := hge _ hm'
      rw [hlook t0.speaker] at h1
      exact lt_of_lt_of_le ht0pos h1
  refine ⟨?_, ?_⟩
  · rw [hchosen, hchosen_total]
    exact hp2pos
  · intro sp
    rw [hchosen, hchosen_total]
    rcases lookupQ_zero_or_mem
        (pipeline2.speaker_counts (pipeline2.overlapping_speakers s turns)) sp with h0 | hm'
    · rw [← hlook sp, h0]
      exact le_of_lt hp2pos
    · have h1 := hge _ hm'
      rw [hlook sp] at h1
      exact h1

/-- The output of pipeline2's aligner at index `i`: the input segment with
text stripped and the chosen speaker attached. -/
theorem map_speakers_get (ws : List WSeg) (turns : List Turn) (i : ℕ) :
    (pipeline2.map_speakers_to_segments ws turns).get? i =
      (ws.get? i).map fun s =>
        (⟨s.start, s.stop, pystrip s.text, pipeline2.chosen_speaker s turns⟩ : MappedSeg) := by
  simp [pipeline2.map_speakers_to_segments, List.get?_map]

/-! ## Claim theorems: the Temporal Aligner (C1, C5, C6, C7) -/

/-- C1 counterexample: the claim reads "the aligner assigns the speaker whose
total overlap duration, summed over all of that speaker's overlapping turns,
is maximal", but two of the cited aligners do not.  `pipeline.py`'s
`map_speakers_to_segments` counts overlapping turns: on segment `[0,20]` with
turns `(A,0,1)`, `(A,2,3)`, `(B,0,20)` it picks `A` (two turns) although `B`'s
total overlap 20 exceeds `A`'s 2.  `python_diarization.py`'s `align_segments`
takes the single longest turn: on segment `[0,20]` with turns `(A,0,6)`,
`(A,6,12)`, `(B,0,10)` it picks `B` (longest single overlap 10) although `A`'s
total 12 exceeds `B`'s 10. -/
theorem count_based_aligners_not_max_total :
    pipeline1.map_speakers_to_segments [⟨0, 20, "x"⟩]
        [⟨"A", 0, 1⟩, ⟨"A", 2, 3⟩, ⟨"B", 0, 20⟩] = [⟨0, 20, "x", "A"⟩] ∧
      totalOverlap ⟨0, 20, "x"⟩ [⟨"A", 0, 1⟩, ⟨"A", 2, 3⟩, ⟨"B", 0, 20⟩] "A"
        < totalOverlap ⟨0, 20, "x"⟩ [⟨"A", 0, 1⟩, ⟨"A", 2, 3⟩, ⟨"B", 0, 20⟩] "B" ∧
      python_diarization.align_segments [⟨0, 20, "y"⟩]
        [⟨"A", 0, 6⟩, ⟨"A", 6, 12⟩, ⟨"B", 0, 10⟩] = [⟨0, 20, "y", "Speaker_B"⟩] ∧
      totalOverlap ⟨0, 20, "y"⟩ [⟨"A", 0, 6⟩, ⟨"A", 6, 12⟩, ⟨"B", 0, 10⟩] "B"
        < totalOverlap ⟨0, 20, "y"⟩ [⟨"A", 0, 6⟩, ⟨"A", 6, 12⟩, ⟨"B", 0, 10⟩] "A" := by
  refine ⟨?_, ?_, ?_, ?_⟩ <;> with_unfolding_all decide

/-- C1 (amended to `pipeline2.py`'s aligner, the one the spec's §4.3
algorithm describes): for every transcript segment with at least one
positive-overlap diarization turn, `pipeline2.map_speakers_to_segments`
assigns a speaker with strictly positive total overlap whose total overlap
duration, summed over all of that speaker's overlapping turns, is maximal
among all speakers. -/
theorem aligner_max_total_overlap (ws : List WSeg) (turns : List Turn) (i : ℕ)
    (seg : WSeg) (out : MappedSeg)
    (hseg : ws.get? i = some seg)
    (hout : (pipeline2.map_speakers_to_segments ws turns).get? i = some out)
    (hov : ∃ t ∈ turns, 0 < overlapDuration seg t) :
    0 < totalOverlap seg turns out.speaker ∧
      ∀ sp, totalOverlap seg turns sp ≤ totalOverlap seg turns out.speaker := by
  have hsp : out.speaker = pipeline2.chosen_speaker seg turns := by
    rw [map_speakers_get, hseg] at hout
    simp only [Option.map_some'] at hout
    rw [← Option.some.inj hout]
  rw [hsp]
  exact chosen_speaker_max seg turns hov

/-- C1 witness: the spec's own example — segment `[0,2]`, turns `(A,0,1)`,
`(B,1,2)`, `(A,1.5,2)`; the aligner picks `A`, whose total 1.5 beats `B`'s
1.0. -/
theorem aligner_max_total_overlap_witness :
    0 < totalOverlap ⟨0, 2, " hi "⟩ [⟨"A", 0, 1⟩, ⟨"B", 1, 2⟩, ⟨"A", 3/2, 2⟩] "A" ∧
      totalOverlap ⟨0, 2, " hi "⟩ [⟨"A", 0, 1⟩, ⟨"B", 1, 2⟩, ⟨"A", 3/2, 2⟩] "B"
        ≤ totalOverlap ⟨0, 2, " hi "⟩ [⟨"A", 0, 1⟩, ⟨"B", 1, 2⟩, ⟨"A", 3/2, 2⟩] "A" := by
  have h := aligner_max_total_overlap [⟨0, 2, " hi "⟩]
    [⟨"A", 0, 1⟩, ⟨"B", 1, 2⟩, ⟨"A", 3/2, 2⟩] 0 ⟨0, 2, " hi "⟩ ⟨0, 2, "hi", "A"⟩
    rfl (by with_unfolding_all decide)
    ⟨⟨"A", 0, 1⟩, by simp, by with_unfolding_all decide⟩
  exact ⟨h.1, h.2 "B"⟩

/-- C5 counterexample: `pipeline.py`'s aligner resolves a total-overlap tie
with `max(set(overlapping), key=overlapping.count)`; a Python set of strings
has no specified iteration order (it varies with the per-process hash seed),
so two runs on identical inputs in identical order can disagree.  With
segment `[0,2]` and turns `(A,0,1)`, `(B,1,2)` (a 1.0 vs 1.0 tie), the two
set-enumeration orders `setEnumA`/`setEnumB` — enumerations of the same set —
yield different speakers. -/
theorem tie_break_depends_on_set_order :
    pipeline1.map_speakers_to_segments_enum setEnumA [⟨0, 2, "t"⟩]
        [⟨"A", 0, 1⟩, ⟨"B", 1, 2⟩]
      ≠ pipeline1.map_speakers_to_segments_enum setEnumB [⟨0, 2, "t"⟩]
        [⟨"A", 0, 1⟩, ⟨"B", 1, 2⟩] ∧
      (setEnumA ["A", "B"]).Perm (setEnumB ["A", "B"]) := by
  constructor
  · with_unfolding_all decide
  · decide

/-- C5 (amended to `pipeline2.py`'s aligner): the aligner is a pure function
of the ordered segment list and the ordered turn list — two runs on equal
inputs in equal order return equal speaker assignments, ties included (its
tie-break is fixed by dict insertion order, not by set iteration order). -/
theorem aligner_deterministic (ws ws' : List WSeg) (turns turns' : List Turn)
    (hw : ws = ws') (ht : turns = turns') :
    pipeline2.map_speakers_to_segments ws turns
      = pipeline2.map_speakers_to_segments ws' turns' := by
  rw [hw, ht]

/-- C5 witness: two identical runs on an exact-tie input (`A` and `B` both
overlap 1.0) agree, and both resolve the tie to the first speaker encountered
in turn iteration order. -/
theorem aligner_deterministic_witness :
    pipeline2.map_speakers_to_segments [⟨0, 2, "t"⟩] [⟨"A", 0, 1⟩, ⟨"B", 1, 2⟩]
        = pipeline2.map_speakers_to_segments [⟨0, 2, "t"⟩] [⟨"A", 0, 1⟩, ⟨"B", 1, 2⟩] ∧
      pipeline2.map_speakers_to_segments [⟨0, 2, "t"⟩] [⟨"A", 0, 1⟩, ⟨"B", 1, 2⟩]
        = [⟨0, 2, "t", "A"⟩] :=
  ⟨aligner_deterministic _ _ _ _ rfl rfl, by with_unfolding_all decide⟩

/-- C6 counterexample: the claim says every output carries "the input text
with surrounding whitespace trimmed", but `pipeline.py`'s
`map_speakers_to_segments` stores `seg['text']` without `.strip()`: on a
segment with text `" hi "` the output text is `" hi "`, not its stripped
form `"hi"`. -/
theorem pipeline1_aligner_no_trim :
    pipeline1.map_speakers_to_segments [⟨0, 1, " hi "⟩] [] = [⟨0, 1, " hi ", "Unknown"⟩] ∧
      pystrip " hi " ≠ " hi " := by
  constructor
  · with_unfolding_all decide
  · decide

/-- C6 (amended to `pipeline2.py`'s aligner; `python_diarization.py` also
trims, `pipeline.py` does not): the aligner returns exactly one output per
input transcript segment, in the same order, and the output at index `i`
carries the input's `start` and `end` unchanged, the input text stripped of
surrounding whitespace, and the chosen speaker. -/
theorem aligner_shape (ws : List WSeg) (turns : List Turn) (i : ℕ) (seg : WSeg)
    (hseg : ws.get? i = some seg) :
    (pipeline2.map_speakers_to_segments ws turns).length = ws.length ∧
      (pipeline2.map_speakers_to_segments ws turns).get? i
        = some ⟨seg.start, seg.stop, pystrip seg.text, pipeline2.chosen_speaker seg turns⟩ := by
  constructor
  · simp [pipeline2.map_speakers_to_segments]
  · rw [map_speakers_get, hseg]
    rfl

/-- C6 witness: one segment, one turn. -/
theorem aligner_shape_witness :
    (pipeline2.map_speakers_to_segments [⟨0, 2, " hi "⟩] [⟨"A", 0, 1⟩]).length = 1 ∧
      (pipeline2.map_speakers_to_segments [⟨0, 2, " hi "⟩] [⟨"A", 0, 1⟩]).get? 0
        = some ⟨0, 2, pystrip " hi ",
            pipeline2.chosen_speaker ⟨0, 2, " hi "⟩ [⟨"A", 0, 1⟩]⟩ :=
  aligner_shape [⟨0, 2, " hi "⟩] [⟨"A", 0, 1⟩] 0 ⟨0, 2, " hi "⟩ rfl

/-- C7 counterexample: the claim (and the spec's §8 example) say the
no-overlap sentinel is `"unknown"`, but on the spec's own example — segment
`[10,11]`, turns covering only `[0,5]` — `pipeline2.py`'s aligner assigns
`"Unknown"` (capital U; `pipeline.py` likewise, and `python_diarization.py`
assigns `"Speaker_unknown"`). -/
theorem no_overlap_sentinel_capitalized :
    pipeline2.map_speakers_to_segments [⟨10, 11, "t"⟩] [⟨"A", 0, 2⟩, ⟨"B", 2, 5⟩]
        = [⟨10, 11, "t", "Unknown"⟩] ∧
      python_diarization.align_segments [⟨10, 11, "t"⟩] [⟨"A", 0, 2⟩, ⟨"B", 2, 5⟩]
        = [⟨10, 11, "t", "Speaker_unknown"⟩] ∧
      ("Unknown" : String) ≠ "unknown" := by
  refine ⟨?_, ?_, ?_⟩
  · with_unfolding_all decide
  · with_unfolding_all decide
  · decide

/-- C7 (amended: the sentinel string is `"Unknown"`, not `"unknown"`): every
transcript segment with zero overlap with every diarization turn is assigned
the sentinel speaker `"Unknown"` by `pipeline2.py`'s aligner. -/
theorem no_overlap_assigns_Unknown (ws : List WSeg) (turns : List Turn) (i : ℕ)
    (seg : WSeg)
    (hseg : ws.get? i = some seg)
    (hov : ∀ t ∈ turns, overlapDuration seg t = 0) :
    (pipeline2.map_speakers_to_segments ws turns).get? i
      = some ⟨seg.start, seg.stop, pystrip seg.text, "Unknown"⟩ := by
  have hos : pipeline2.overlapping_speakers seg turns = [] := by
    refine List.filterMap_eq_nil.mpr ?_
    intro t ht
    simp [hov t ht]
  have hcs : pipeline2.chosen_speaker seg turns = "Unknown" := by
    rw [pipeline2.chosen_speaker, hos]
    rfl
  rw [map_speakers_get, hseg]
  simp [hcs]

/-- C7 witness: the spec's no-overlap example, segment `[10,11]` against
turns covering only `[0,5]`. -/
theorem no_overlap_assigns_Unknown_witness :
    (pipeline2.map_speakers_to_segments [⟨10, 11, " t "⟩] [⟨"A", 0, 2⟩, ⟨"B", 2, 5⟩]).get? 0
      = some ⟨10, 11, pystrip " t ", "Unknown"⟩ :=
  no_overlap_assigns_Unknown [⟨10, 11, " t "⟩] [⟨"A", 0, 2⟩, ⟨"B", 2, 5⟩] 0
    ⟨10, 11, " t "⟩ rfl (by with_unfolding_all decide)

/-! ## Claim theorems: the Aggregator (C8) and the Audio Normalizer (C9) -/

/-- The merge loop's output length is the minimum of the six list lengths
(`min_len` at `src/pipeline2.py` lines 692–693). -/
theorem aggregateSegments_length :
    ∀ (ds : List MappedSeg) (afs : List AFeat) (tes : List (List ℚ))
      (tms sems : List String) (kws : List (List String)),
      (aggregateSegments ds afs tes tms sems kws).length
        = min ds.length (min afs.length (min tes.length (min tms.length
            (min sems.length kws.length)))) := by
  intro ds
  induction ds with
  | nil =>
    intro afs tes tms sems kws
    simp [aggregateSegments]
  | cons d ds ih =>
    intro afs tes tms sems kws
    cases afs with
    | nil => simp [aggregateSegments]
    | cons a afs =>
      cases tes with
      | nil => simp [aggregateSegments]
      | cons e tes =>
        cases tms with
        | nil => simp [aggregateSegments]
        | cons m tms =>
          cases sems with
          | nil => simp [aggregateSegments]
          | cons se sems =>
            cases kws with
            | nil => simp [aggregateSegments]
            | cons k kws =>
              have h := ih afs tes tms sems kws
              simp only [aggregateSegments, List.length_cons, h]
              omega

/-- Every merged record's fields are read from the input lists at the same
index (the loop body at `src/pipeline2.py` lines 698–705): nothing is padded
or fabricated. -/
theorem aggregateSegments_get :
    ∀ (ds : List MappedSeg) (afs : List AFeat) (tes : List (List ℚ))
      (tms sems : List String) (kws : List (List String)) (i : ℕ) (s : FinalSeg),
      (aggregateSegments ds afs tes tms sems kws).get? i = some s →
        ds.get? i = some ⟨s.start, s.stop, s.text, s.speaker⟩ ∧
          afs.get? i = some s.audio_features ∧
          tes.get? i = some s.text_embedding ∧
          tms.get? i = some s.text_emotion ∧
          sems.get? i = some s.speech_emotion ∧
          kws.get? i = some s.keywords := by
  intro ds
  induction ds with
  | nil =>
    intro afs tes tms sems kws i s h
    simp [aggregateSegments] at h
  | cons d ds ih =>
    intro afs tes tms sems kws i s h
    cases afs with
    | nil => simp [aggregateSegments] at h
    | cons a afs =>
      cases tes with
      | nil => simp [aggregateSegments] at h
      | cons e tes =>
        cases tms with
        | nil => simp [aggregateSegments] at h
        | cons m tms =>
          cases sems with
          | nil => simp [aggregateSegments] at h
          | cons se sems =>
            cases kws with
            | nil => simp [aggregateSegments] at h
            | cons k kws =>
              cases i with
              | zero =>
                simp only [aggregateSegments, List.get?] at h
                have hs := Option.some.inj h
                subst hs
                simp
              | succ n =>
                simp only [aggregateSegments, List.get?] at h
                simpa [List.get?] using ih afs tes tms sems kws n s h

/-- C8: for every aligned sequence and per-segment field lists, the merge
loop of `run_full_pipeline` (lines 690–705) produces output of exactly the
minimum common length across the aligned sequence and all field lists, and
every output record's fields are the input lists' entries at the same index
— never a padded or fabricated value.  (The loop also prints a warning when
`min_len < len(diarized_segments)` and raises nothing; the embedding is a
total function.) -/
theorem aggregator_min_length (ds : List MappedSeg) (afs : List AFeat)
    (tes : List (List ℚ)) (tms sems : List String) (kws : List (List String))
    (i : ℕ) (s : FinalSeg)
    (hs : (aggregateSegments ds afs tes tms sems kws).get? i = some s) :
    (aggregateSegments ds afs tes tms sems kws).length
        = min ds.length (min afs.length (min tes.length (min tms.length
            (min sems.length kws.length)))) ∧
      ds.get? i = some ⟨s.start, s.stop, s.text, s.speaker⟩ ∧
        afs.get? i = some s.audio_features ∧
        tes.get? i = some s.text_embedding ∧
        tms.get? i = some s.text_emotion ∧
        sems.get? i = some s.speech_emotion ∧
        kws.get? i = some s.keywords :=
  ⟨aggregateSegments_length ds afs tes tms sems kws,
    aggregateSegments_get ds afs tes tms sems kws i s hs⟩

/-- C8 witness: the spec's §8 example shape — aligned sequence of length 5,
one enrichment field list of length 3, the rest of length 5: the output has
length `3 = min 5 (min 3 ...)`, no exception, and record 0 is drawn from the
inputs at index 0. -/
theorem aggregator_min_length_witness :
    (aggregateSegments
        [⟨0, 1, "a", "A"⟩, ⟨1, 2, "b", "B"⟩, ⟨2, 3, "c", "A"⟩, ⟨3, 4, "d", "B"⟩,
          ⟨4, 5, "e", "A"⟩]
        [⟨[], [], 0⟩, ⟨[], [], 1⟩, ⟨[], [], 2⟩]
        [[], [], [], [], []] ["j", "j", "j", "j", "j"] ["n", "n", "n", "n", "n"]
        [["k"], ["k"], ["k"], ["k"], ["k"]]).length = 3 ∧
      [⟨0, 1, "a", "A"⟩, ⟨1, 2, "b", "B"⟩, ⟨2, 3, "c", "A"⟩, ⟨3, 4, "d", "B"⟩,
          (⟨4, 5, "e", "A"⟩ : MappedSeg)].get? 0 = some ⟨0, 1, "a", "A"⟩ ∧
        [⟨[], [], 0⟩, ⟨[], [], 1⟩, (⟨[], [], 2⟩ : AFeat)].get? 0 = some ⟨[], [], 0⟩ ∧
        [[], [], [], [], ([] : List ℚ)].get? 0 = some [] ∧
        ["j", "j", "j", "j", "j"].get? 0 = some "j" ∧
        ["n", "n", "n", "n", "n"].get? 0 = some "n" ∧
        [["k"], ["k"], ["k"], ["k"], ["k"]].get? 0 = some ["k"] :=
  aggregator_min_length
    [⟨0, 1, "a", "A"⟩, ⟨1, 2, "b", "B"⟩, ⟨2, 3, "c", "A"⟩, ⟨3, 4, "d", "B"⟩, ⟨4, 5, "e", "A"⟩]
    [⟨[], [], 0⟩, ⟨[], [], 1⟩, ⟨[], [], 2⟩]
    [[], [], [], [], []] ["j", "j", "j", "j", "j"] ["n", "n", "n", "n", "n"]
    [["k"], ["k"], ["k"], ["k"], ["k"]] 0 ⟨0, 1, "a", "A", ⟨[], [], 0⟩, [], "j", "n", ["k"]⟩
    (by with_unfolding_all decide)

/-- C9 counterexample: the claim says the audio normalizer produces a mono
16 kHz file, but `preprocess_audio` (`src/pipeline2.py`, the pipeline's
Step 1) only slices: a stereo 44.1 kHz input stays stereo 44.1 kHz
(`convert_and_trim` of `pipeline.py` behaves the same way; only
`python_diarization.py`'s `trim_to_wav` calls
`set_channels(1).set_frame_rate(16000)`). -/
theorem preprocess_audio_not_mono16k :
    (pipeline2.preprocess_audio ⟨2, 44100, 600000⟩ 300).channels = 2 ∧
      (pipeline2.preprocess_audio ⟨2, 44100, 600000⟩ 300).frame_rate = 44100 ∧
      ¬ ((pipeline2.preprocess_audio ⟨2, 44100, 600000⟩ 300).channels = 1 ∧
          (pipeline2.preprocess_audio ⟨2, 44100, 600000⟩ 300).frame_rate = 16000) := by
  refine ⟨rfl, rfl, ?_⟩
  intro h
  exact absurd h.1 (by decide)

/-- C9 (amended): every normalizer variant truncates to the maximum duration
instead of erroring (the output never exceeds `max_duration_sec * 1000`
milliseconds and is `min` of input length and that bound), but only
`python_diarization.py`'s `trim_to_wav` converts to mono 16 kHz;
`pipeline2.py`'s `preprocess_audio` and `pipeline.py`'s `convert_and_trim`
pass the input's channel count and frame rate through unchanged. -/
theorem audio_normalizer_props (a : Audio) (m : ℕ) :
    (python_diarization.trim_to_wav a m).channels = 1 ∧
      (python_diarization.trim_to_wav a m).frame_rate = 16000 ∧
      (python_diarization.trim_to_wav a m).length_ms = min a.length_ms (m * 1000) ∧
      (pipeline2.preprocess_audio a m).length_ms = min a.length_ms (m * 1000) ∧
      (pipeline2.preprocess_audio a m).channels = a.channels ∧
      (pipeline2.preprocess_audio a m).frame_rate = a.frame_rate ∧
      (pipeline1.convert_and_trim a m).length_ms = min a.length_ms (m * 1000) ∧
      (pipeline1.convert_and_trim a m).channels = a.channels ∧
      (pipeline1.convert_and_trim a m).frame_rate = a.frame_rate :=
  ⟨rfl, rfl, rfl, rfl, rfl, rfl, rfl, rfl, rfl⟩

/-! ## Lemmas about the stage executor -/

/-- A corrupted record and an absent record behave identically in a stage
whose compute succeeds: the load yields `None` either way, the value is
computed, and the fresh record overwrites whatever was there. -/
theorem stageStep_corrupt_eq_absent {α : Type} (sid : StageId) (v : α) :
    stageStep sid CEntry.corrupt (some v) = stageStep sid CEntry.absent (some v) := rfl

theorem stageStep_mem_delta {α : Type} {sid : StageId} {e : CEntry α} {c : Option α}
    {x : StageId} (hx : x ∈ (stageStep sid e c).2.1) : x = sid ∧ e.kind ≠ EKind.ok := by
  cases e <;> cases c <;>
    simp [stageStep, load_intermediate_json, CEntry.kind] at hx ⊢ <;> exact hx

theorem mem_delta_not_ok {α : Type} {sid : StageId} {e : CEntry α} {c : Option α}
    {r : Option α} {d : List StageId} {e' : CEntry α}
    (heq : stageStep sid e c = (r, d, e')) {s : StageId} (hs : s ∈ d) :
    s = sid ∧ e.kind ≠ EKind.ok := by
  refine @stageStep_mem_delta α sid e c s ?_
  rw [heq]
  exact hs

/-- A stage whose record is present and parseable is never computed: its
`compute` (collaborator call) does not appear in the run's invoked list. -/
theorem invoked_not_cached (inp : RunInput) :
    ∀ s ∈ (run_full_pipeline inp).invoked, cacheKind inp s ≠ EKind.ok := by
  intro s hs
  simp only [run_full_pipeline] at hs
  repeat' split at hs
  all_goals repeat rcases List.mem_append.mp hs with hs | hs
  all_goals
    first
      | exact absurd hs (List.not_mem_nil s)
      | (rw [List.mem_singleton] at hs
         subst hs
         simp [cacheKind, *])
      | (obtain ⟨rfl, hk⟩ := mem_delta_not_ok (by assumption) hs
         simpa [cacheKind, Cache.kindAt] using hk)

/-- Every successful run saves exactly one final document: the simplified
`"_no_embeddings"` variant of the document it returns. -/
theorem run_result_shape (inp : RunInput) :
    (run_full_pipeline inp).result = none ∨
      ∃ doc, (run_full_pipeline inp).result = some doc ∧
        (run_full_pipeline inp).savedFinal
          = [SavedDoc.simple (inp.filename_base ++ "_no_embeddings") (simplifyDoc doc)] := by
  simp only [run_full_pipeline]
  repeat' split
  all_goals
    first
      | (left; rfl)
      | (right; exact ⟨_, rfl, rfl⟩)

/-! ## Claim theorems: the orchestrator (C2, C3, C4, C10) -/

/-- C4: if the cache holds valid records for every stage of index `≤ k`
(the trimmed wav for Step 1, a parseable JSON record for the others), the
re-run never invokes the compute/collaborator of any stage `i ≤ k` — every
invoked compute has index `> k`. -/
theorem resumability (inp : RunInput) (k : ℕ)
    (hvalid : ∀ s : StageId, stageIndex s ≤ k → cacheKind inp s = EKind.ok) :
    ∀ s : StageId, s ∈ (run_full_pipeline inp).invoked → k < stageIndex s := by
  intro s hs
  by_contra hk
  exact invoked_not_cached inp s hs (hvalid s (le_of_not_lt hk))

/-- C4 witness: `resumeInput` holds valid records for stages 1–4; its re-run
invokes the keywords stage (index 9 > 4), and stage 4's record is indeed
valid. -/
theorem resumability_witness :
    4 < stageIndex StageId.keywords ∧
      cacheKind resumeInput StageId.mapped_segments = EKind.ok :=
  ⟨resumability resumeInput 4 (by decide) StageId.keywords (by with_unfolding_all decide),
    by decide⟩

/-- C3: a corrupted (unparseable) JSON record for any checkpointed stage
behaves exactly as an absent one — no exception escapes the load, the whole
run trace is the one an absent record produces, the stage's compute is
invoked and its fresh result overwrites the damaged record, and (all
collaborators succeeding, the transcript being non-empty) the run completes
with a document. -/
theorem corrupt_cache_record_acts_as_absent (inp : RunInput) (s : StageId)
    (hpre : s ≠ StageId.preprocess)
    (hwav : inp.wav_exists = true)
    (hcache : inp.cache = Cache.empty)
    (wr : WhisperResult) (dl : List Turn) (afs : List AFeat) (tes : List (List ℚ))
    (tms sems : List String) (kws : List (List String))
    (ht : inp.collab.transcribe_audio = some wr)
    (hseg : wr.segments ≠ [])
    (hd : inp.collab.perform_speaker_diarization = some dl)
    (haf : inp.collab.extract_audio_features = some afs)
    (hte : inp.collab.get_text_embeddings = some tes)
    (htm : inp.collab.run_text_emotion_analysis = some tms)
    (hse : inp.collab.run_speech_emotion_recognition = some sems)
    (hkw : inp.collab.extract_keywords = some kws) :
    run_full_pipeline { inp with cache := setCorrupt Cache.empty s }
        = run_full_pipeline inp ∧
      s ∈ (run_full_pipeline { inp with cache := setCorrupt Cache.empty s }).invoked ∧
      ((run_full_pipeline { inp with cache := setCorrupt Cache.empty s }).cacheAfter).kindAt s
        = EKind.ok ∧
      ((run_full_pipeline { inp with cache := setCorrupt Cache.empty s }).result).isSome
        = true := by
  have hmapne : pipeline2.map_speakers_to_segments wr.segments dl ≠ [] := by
    simp [pipeline2.map_speakers_to_segments, hseg]
  cases s
  case preprocess => exact absurd rfl hpre
  all_goals
    simp [run_full_pipeline, setCorrupt, Cache.empty, stageStep, load_intermediate_json,
      hwav, hcache, ht, hd, haf, hte, htm, hse, hkw, hmapne, Cache.kindAt, CEntry.kind]

/-- C3 witness: the spec's §8 example — a corrupt record for stage
"keywords" is treated as absent, the stage recomputes and overwrites it, and
the run completes. -/
theorem corrupt_cache_record_acts_as_absent_witness :
    run_full_pipeline { demoInputW with cache := setCorrupt Cache.empty StageId.keywords }
        = run_full_pipeline demoInputW ∧
      StageId.keywords ∈ (run_full_pipeline
        { demoInputW with cache := setCorrupt Cache.empty StageId.keywords }).invoked ∧
      ((run_full_pipeline
        { demoInputW with cache := setCorrupt Cache.empty StageId.keywords }).cacheAfter).kindAt
          StageId.keywords = EKind.ok ∧
      ((run_full_pipeline
        { demoInputW with cache := setCorrupt Cache.empty StageId.keywords }).result).isSome
        = true :=
  corrupt_cache_record_acts_as_absent demoInputW StageId.keywords (by decide) rfl rfl
    ⟨" hello there ", [⟨0, 2, " hello "⟩]⟩ [⟨"A", 0, 2⟩] [⟨[1], [2], 3⟩] [[1, 2]]
    ["joy"] ["neu"] [["hi"]] rfl (by decide) rfl rfl rfl rfl rfl rfl

/-- C2 counterexample: a concrete fresh run in which only the Speech Emotion
Classifier raises.  Contrary to the claim, the run IS aborted:
`run_full_pipeline` returns the empty result, the keywords stage never
executes, and no final document is produced (so no segment ever carries an
"unavailable" marker — that string does not occur in the source at all). -/
theorem ser_failure_aborts_run_concrete :
    (run_full_pipeline serFailInput).result = none ∧
      StageId.keywords ∉ (run_full_pipeline serFailInput).invoked ∧
      (run_full_pipeline serFailInput).savedFinal = [] := by
  with_unfolding_all decide

/-- C2 (amended): a failure in an optional enrichment stage (here the Speech
Emotion Classifier, with every earlier stage succeeding on a fresh cache and
a non-empty transcript) aborts the run: `run_full_pipeline` returns `{}`
(`none`), the later keywords stage is never invoked, and no final document
is saved.  The speech-emotion compute itself was attempted. -/
theorem optional_stage_failure_aborts (inp : RunInput) (wr : WhisperResult)
    (dl : List Turn) (afs : List AFeat) (tes : List (List ℚ)) (tms : List String)
    (hwav : inp.wav_exists = true)
    (hcache : inp.cache = Cache.empty)
    (ht : inp.collab.transcribe_audio = some wr)
    (hseg : wr.segments ≠ [])
    (hd : inp.collab.perform_speaker_diarization = some dl)
    (haf : inp.collab.extract_audio_features = some afs)
    (hte : inp.collab.get_text_embeddings = some tes)
    (htm : inp.collab.run_text_emotion_analysis = some tms)
    (hse : inp.collab.run_speech_emotion_recognition = none) :
    (run_full_pipeline inp).result = none ∧
      StageId.speech_emotions ∈ (run_full_pipeline inp).invoked ∧
      StageId.keywords ∉ (run_full_pipeline inp).invoked ∧
      (run_full_pipeline inp).savedFinal = [] := by
  have hmapne : pipeline2.map_speakers_to_segments wr.segments dl ≠ [] := by
    simp [pipeline2.map_speakers_to_segments, hseg]
  simp [run_full_pipeline, stageStep, load_intermediate_json, hwav, hcache, Cache.empty,
    ht, hd, haf, hte, htm, hse, hmapne]

/-- C2 witness: the concrete run of `serFailInput` under the amended claim. -/
theorem optional_stage_failure_aborts_witness :
    (run_full_pipeline serFailInput).result = none ∧
      StageId.speech_emotions ∈ (run_full_pipeline serFailInput).invoked ∧
      StageId.keywords ∉ (run_full_pipeline serFailInput).invoked ∧
      (run_full_pipeline serFailInput).savedFinal = [] :=
  optional_stage_failure_aborts serFailInput ⟨" hello there ", [⟨0, 2, " hello "⟩]⟩
    [⟨"A", 0, 2⟩] [⟨[1], [2], 3⟩] [[1, 2]] ["joy"] rfl rfl rfl (by decide) rfl rfl rfl rfl rfl

/-- C10: every successful run persists exactly one final document — the
simplified `"_no_embeddings"` variant, with `audio_features` and
`text_embedding` removed from every segment — because `run_full_pipeline`
returns at line 731, before the statements (lines 733–738) that would save
the full document; the full document exists only in the returned value. -/
theorem only_simplified_document_saved (inp : RunInput) (doc : FullDoc)
    (h : (run_full_pipeline inp).result = some doc) :
    (run_full_pipeline inp).savedFinal
      = [SavedDoc.simple (inp.filename_base ++ "_no_embeddings") (simplifyDoc doc)] := by
  rcases run_result_shape inp with h0 | ⟨d, hd, hsf⟩
  · rw [h0] at h
    cases h
  · rw [hd] at h
    rw [hsf, Option.some.inj h]

/-- C10 witness: the demonstration run returns `demoFull` and persists only
`simplifyDoc demoFull` under the `"_no_embeddings"` name. -/
theorem only_simplified_document_saved_witness :
    (run_full_pipeline demoInput).savedFinal
      = [SavedDoc.simple ("t" ++ "_no_embeddings") (simplifyDoc demoFull)] :=
  only_simplified_document_saved demoInput demoFull (by with_unfolding_all decide)
